import Mathlib

/-!
Shallow embedding of `src/extensions/klipper_save_restore_position.py`
(class `KlipperSaveRestorePosition`), the position snapshot store of the
Klipper-Save-Restore-Position plugin.

Modelling conventions:
* G-code float values are embedded as exact rationals (`ℚ`).
* `self._saved_position` (a Python list of three `float | None` entries) is a
  `List (Option ℚ)`.
* A G-code command object (`gcmd`) is embedded as its `get_float` accessor,
  a partial map from parameter names to values.
* Python exceptions are values of `PyExc`; a raised-and-wrapped exception
  (`raise E(msg) from e`) is a `WrappedExc` holding the new message and the
  original cause.
* `self.gcode.run_script_from_command` is a parameter
  `executor : String → Except String Unit`; the list of strings it was
  invoked with is returned alongside the result, so that "invoked exactly
  once with s" is observable as the log `[s]`.
* Methods are state-passing functions on `Store`; a method that never
  assigns `self._saved_position` returns the store it received.
-/

namespace SaveRestore

/-- Python module constant `XYZ_TO_INDEX`: axis letter (either case) to
coordinate index; absent keys are `none` (a lookup of such a key raises
`KeyError` in Python). -/
def XYZ_TO_INDEX : Char → Option Nat
  | 'x' => some 0
  | 'X' => some 0
  | 'y' => some 1
  | 'Y' => some 1
  | 'z' => some 2
  | 'Z' => some 2
  | _ => none

/-- Embedded Python exceptions relevant to this module: `TypeError` from
`None + float`, `KeyError` from a failed `XYZ_TO_INDEX[axis]` lookup, and
any exception raised by the command executor (kept as its message). -/
inductive PyExc where
  | typeError (msg : String)
  | keyError (key : String)
  | execError (msg : String)
deriving DecidableEq

/-- Python `str(e)` of an embedded exception. -/
def PyExc.str : PyExc → String
  | .typeError m => m
  | .keyError k => k
  | .execError m => m

/-- An exception raised with `raise E(msg) from cause`: the wrapping message
together with the preserved original cause (`__cause__`). -/
structure WrappedExc where
  msg : String
  cause : PyExc
deriving DecidableEq

/-- The store state: field `_saved_position` of `KlipperSaveRestorePosition`. -/
structure Store where
  saved_position : List (Option ℚ)
deriving DecidableEq

/-- `__init__`: `self._saved_position = [None, None, None]`. -/
def Store.init : Store := ⟨[none, none, none]⟩

/-- A G-code command payload: the `gcmd.get_float(name, None)` accessor. -/
def GCodePayload : Type := String → Option ℚ

/-- One iteration of the loop in `offset_from_gcmd` for a single `axis` in
`["X", "Y", "Z"]`: read `axis` and `axis + "_ADJUST"` from the command, set
the slot on an absolute value, add to the slot on an adjustment (raising
`TypeError` when the slot holds `None`), otherwise leave the slot alone. -/
def offset_step (gcmd : GCodePayload) (offset : List (Option ℚ)) (axis : Char) :
    Except PyExc (List (Option ℚ)) :=
  let i := (XYZ_TO_INDEX axis).getD 0
  let pos := gcmd (String.singleton axis)
  let adjust := gcmd (String.singleton axis ++ "_ADJUST")
  match pos with
  | some v => .ok (offset.set i (some v))
  | none =>
    match adjust with
    | some a =>
      match offset.getD i none with
      | some c => .ok (offset.set i (some (c + a)))
      | none => .error (.typeError ("unsupported operand type for +=: NoneType and float"))
    | none => .ok offset

/-- The `for axis in ["X", "Y", "Z"]` loop of `offset_from_gcmd`. -/
def offset_loop (gcmd : GCodePayload) (offset : List (Option ℚ)) :
    List Char → Except PyExc (List (Option ℚ))
  | [] => .ok offset
  | axis :: rest =>
    match offset_step gcmd offset axis with
    | .ok offset2 => offset_loop gcmd offset2 rest
    | .error e => .error e

/-- Method `offset_from_gcmd(gcmd, offset)`. -/
def offset_from_gcmd (gcmd : GCodePayload) (offset : List (Option ℚ)) :
    Except PyExc (List (Option ℚ)) :=
  offset_loop gcmd offset ['X', 'Y', 'Z']

/-- Command handler `cmd_KTC_SAVE_POSITION`: assigns
`self.offset_from_gcmd(gcmd, [None, None, None])` to `self._saved_position`,
wrapping any exception into `gcmd.error(...) from e`. -/
def cmd_KTC_SAVE_POSITION (_s : Store) (gcmd : GCodePayload) :
    Except WrappedExc Store :=
  match offset_from_gcmd gcmd [none, none, none] with
  | .ok l => .ok ⟨l⟩
  | .error e => .error ⟨"KTC_SAVE_POSITION: Error: " ++ e.str, e⟩

/-- The `for axis in restore_axis` loop of `SaveCurrentPosition`: recognized
letters store the live coordinate at their index, other characters are
skipped by the `if axis in XYZ_TO_INDEX` guard. -/
def save_loop (current_position : Nat → ℚ) (saved : List (Option ℚ)) :
    List Char → List (Option ℚ)
  | [] => saved
  | axis :: rest =>
    match XYZ_TO_INDEX axis with
    | some i => save_loop current_position (saved.set i (some (current_position i))) rest
    | none => save_loop current_position saved rest

/-- Method `SaveCurrentPosition(restore_axis)`: resets `self._saved_position`
to `[None, None, None]`, then fills the slots of the recognized requested
axes from the live position (`gcode_move._get_gcode_position()`, embedded as
`current_position : Nat → ℚ`). -/
def SaveCurrentPosition (_s : Store) (restore_axis : List Char)
    (current_position : Nat → ℚ) : Store :=
  ⟨save_loop current_position [none, none, none] restore_axis⟩

/-- Digits of `n < 1000` padded to width 3, as produced by the `%.3f`
format for the fractional part. -/
def pad3 (n : Nat) : String :=
  if n < 10 then "00" ++ toString n
  else if n < 100 then "0" ++ toString n
  else toString n

/-- Decimal rendering of `z / 1000` with exactly three digits after the
point. -/
def dec3 (z : Int) : String :=
  (if z < 0 then "-" else "") ++ toString (z.natAbs / 1000) ++ "." ++ pad3 (z.natAbs % 1000)

/-- Thousandths of `q` rounded half-up, `⌊1000 * q + 1/2⌋`, computed on the
numerator and denominator so that the kernel can evaluate it. -/
def roundMilli (q : ℚ) : Int := Int.fdiv (2 * 1000 * q.num + q.den) (2 * q.den)

/-- Python `"%.3f" % v`: the value rounded to the nearest thousandth,
rendered with three decimals. -/
def fmt3 (q : ℚ) : String := dec3 (roundMilli q)

/-- Python truthiness of `speed : int | None`: `None` and `0` are falsy. -/
def truthy : Option Int → Bool
  | none => false
  | some s => s != 0

/-- The `for axis in axis_to_restore` loop of `restore_position`, building
the command string: `XYZ_TO_INDEX[axis]` raises `KeyError` on an
unrecognized letter; a slot holding a value appends `" %s%.3f" % (axis, v)`. -/
def restore_loop (saved : List (Option ℚ)) : List Char → String → Except PyExc String
  | [], cmd => .ok cmd
  | axis :: rest, cmd =>
    match XYZ_TO_INDEX axis with
    | none => .error (.keyError (String.singleton axis))
    | some i =>
      match saved.getD i none with
      | some v => restore_loop saved rest (cmd ++ " " ++ String.singleton axis ++ fmt3 v)
      | none => restore_loop saved rest cmd

/-- The `self.gcode.run_script_from_command(cmd)` call of `restore_position`
together with the enclosing `except` clause: the executor is invoked with
`cmd` (hence `cmd` is appended to the invocation log) and a failure is
re-raised as `Exception("Error restoring position: ...") from e`. -/
def run_exec (s : Store) (executor : String → Except String Unit) (cmd : String) :
    Store × Except WrappedExc Unit × List String :=
  match executor cmd with
  | .ok _ => (s, .ok (), [cmd])
  | .error m => (s, .error ⟨"Error restoring position: " ++ m, .execError m⟩, [cmd])

/-- Method `restore_position(axis_to_restore, speed)`: builds `"G0"` plus one
term per requested axis holding a value; when the command grew beyond
`"G0"`, appends `" F%i" % speed` if `speed` is truthy and hands the string
to the executor once; any exception inside the `try` is re-raised as
`Exception("Error restoring position: ...") from e`. Returns the (never
reassigned) store, the outcome, and the executor invocation log. -/
def restore_position (s : Store) (axis_to_restore : List Char) (speed : Option Int)
    (executor : String → Except String Unit) :
    Store × Except WrappedExc Unit × List String :=
  match restore_loop s.saved_position axis_to_restore "G0" with
  | .error e => (s, .error ⟨"Error restoring position: " ++ e.str, e⟩, [])
  | .ok cmd =>
    if cmd ≠ "G0" then
      run_exec s executor (if truthy speed then cmd ++ " F" ++ toString (speed.getD 0) else cmd)
    else (s, .ok (), [])

/-- Method `get_status`: exposes `self._saved_position` (the sole entry of
the returned status dict). -/
def get_status (s : Store) : List (Option ℚ) := s.saved_position

/-- A concrete live position provider used to exercise the round-trip
property: axis `i` sits at `i/2`. -/
def demoPos (i : Nat) : ℚ := mkRat i 2

/-- Specification-side description of the term contributed by one requested
axis: `none` when the axis is unrecognized or its slot is unset, otherwise
the axis letter with the slot value at three decimals. -/
def axis_term (saved : List (Option ℚ)) (axis : Char) : Option String :=
  (XYZ_TO_INDEX axis).bind fun i =>
    (saved.getD i none).map fun v => " " ++ String.singleton axis ++ fmt3 v

/-- Specification-side concatenation of the axis terms of a request, in
request order, skipping axes without a term. -/
def axis_terms (saved : List (Option ℚ)) : List Char → String
  | [] => ""
  | axis :: rest =>
    match axis_term saved axis with
    | some t => t ++ axis_terms saved rest
    | none => axis_terms saved rest

/-- A payload with the adjustment entry of one axis removed, used to state
that an absolute value makes the same-axis adjustment irrelevant. -/
def removeAdjust (gcmd : GCodePayload) (axis : Char) : GCodePayload :=
  fun k => if k = String.singleton axis ++ "_ADJUST" then none else gcmd k

section Helpers

lemma getD_set_self (l : List (Option ℚ)) (i : Nat) (a : Option ℚ) (h : i < l.length) :
    (l.set i a).getD i none = a := by
  simp [List.getD_eq_getElem?_getD, List.getElem?_set, h]

lemma getD_set_ne (l : List (Option ℚ)) (i j : Nat) (a : Option ℚ) (h : j ≠ i) :
    (l.set j a).getD i none = l.getD i none := by
  simp [List.getD_eq_getElem?_getD, List.getElem?_set, h]

lemma XYZ_TO_INDEX_lt {c : Char} {i : Nat} (h : XYZ_TO_INDEX c = some i) : i < 3 := by
  unfold XYZ_TO_INDEX at h
  split at h <;> simp_all <;> omega

lemma string_length_zero {s : String} (h : s.length = 0) : s = "" := by
  cases s with
  | mk data =>
    simp only [String.length] at h
    rw [List.length_eq_zero] at h
    simp [h]

lemma g0_append_ne {t : String} (h : t ≠ "") : "G0" ++ t ≠ "G0" := by
  intro he
  apply h
  apply string_length_zero
  have := congrArg String.length he
  rw [String.length_append] at this
  omega

lemma save_loop_length (pos : Nat → ℚ) :
    ∀ (axes : List Char) (saved : List (Option ℚ)),
      (save_loop pos saved axes).length = saved.length := by
  intro axes
  induction axes with
  | nil => intro saved; rfl
  | cons a rest ih =>
    intro saved
    unfold save_loop
    cases h : XYZ_TO_INDEX a with
    | none => exact ih saved
    | some i => rw [ih]; exact List.length_set saved i _

lemma save_loop_getD (pos : Nat → ℚ) (i : Nat) :
    ∀ (axes : List Char) (saved : List (Option ℚ)), saved.length = 3 →
      (save_loop pos saved axes).getD i none =
        if ∃ a ∈ axes, XYZ_TO_INDEX a = some i then some (pos i)
        else saved.getD i none := by
  intro axes
  induction axes with
  | nil => intro saved _; simp [save_loop]
  | cons a rest ih =>
    intro saved hlen
    unfold save_loop
    cases h : XYZ_TO_INDEX a with
    | none =>
      rw [ih saved hlen]
      simp [h]
    | some j =>
      have hj3 : j < 3 := XYZ_TO_INDEX_lt h
      rw [ih _ (by rw [List.length_set]; exact hlen)]
      by_cases hrest : ∃ b ∈ rest, XYZ_TO_INDEX b = some i
      · rcases hrest with ⟨b, hb, hbi⟩
        rw [if_pos ⟨b, hb, hbi⟩, if_pos ⟨b, List.mem_cons_of_mem a hb, hbi⟩]
      · rw [if_neg hrest]
        by_cases hji : j = i
        · subst hji
          rw [getD_set_self saved j _ (by omega),
            if_pos ⟨a, List.mem_cons_self a rest, h⟩]
        · rw [getD_set_ne saved i j _ hji]
          rw [if_neg]
          rintro ⟨b, hb, hbi⟩
          rcases List.mem_cons.mp hb with rfl | hb2
          · rw [h] at hbi
            exact hji (Option.some.inj hbi)
          · exact hrest ⟨b, hb2, hbi⟩

lemma run_exec_log (s : Store) (executor : String → Except String Unit) (cmd : String) :
    (run_exec s executor cmd).2.2 = [cmd] := by
  unfold run_exec
  cases executor cmd <;> rfl

lemma run_exec_store (s : Store) (executor : String → Except String Unit) (cmd : String) :
    (run_exec s executor cmd).1 = s := by
  unfold run_exec
  cases executor cmd <;> rfl

lemma run_exec_err (s : Store) (executor : String → Except String Unit) (cmd : String)
    (m : String) (h : executor cmd = .error m) :
    (run_exec s executor cmd).2.1 =
      .error ⟨"Error restoring position: " ++ m, .execError m⟩ := by
  unfold run_exec
  rw [h]

lemma restore_loop_ok (saved : List (Option ℚ)) :
    ∀ (axes : List Char), (∀ a ∈ axes, (XYZ_TO_INDEX a).isSome) →
      ∀ (cmd0 : String),
        restore_loop saved axes cmd0 = .ok (cmd0 ++ axis_terms saved axes) := by
  intro axes
  induction axes with
  | nil =>
    intro _ cmd0
    simp [restore_loop, axis_terms, String.append_empty]
  | cons a rest ih =>
    intro hax cmd0
    obtain ⟨i, hi⟩ := Option.isSome_iff_exists.mp (hax a (List.mem_cons_self a rest))
    have hrest : ∀ b ∈ rest, (XYZ_TO_INDEX b).isSome :=
      fun b hb => hax b (List.mem_cons_of_mem a hb)
    cases hs : saved.getD i none with
    | some v =>
      have hs2 : saved[i]?.getD none = some v := by
        rw [← List.getD_eq_getElem?_getD]; exact hs
      simp only [restore_loop, hi, hs]
      rw [ih hrest]
      simp [axis_terms, axis_term, hi, hs, hs2, String.append_assoc]
    | none =>
      have hs2 : saved[i]?.getD none = none := by
        rw [← List.getD_eq_getElem?_getD]; exact hs
      simp only [restore_loop, hi, hs]
      rw [ih hrest]
      simp [axis_terms, axis_term, hi, hs, hs2]

lemma restore_loop_err (saved : List (Option ℚ)) :
    ∀ (axes : List Char), (∃ a ∈ axes, XYZ_TO_INDEX a = none) →
      ∀ (cmd0 : String), ∃ b : Char,
        restore_loop saved axes cmd0 = .error (.keyError (String.singleton b)) := by
  intro axes
  induction axes with
  | nil =>
    rintro ⟨a, ha, _⟩
    cases ha
  | cons a rest ih =>
    rintro ⟨b, hb, hbn⟩ cmd0
    cases h : XYZ_TO_INDEX a with
    | none => exact ⟨a, by simp [restore_loop, h]⟩
    | some i =>
      have hbrest : b ∈ rest := by
        rcases List.mem_cons.mp hb with rfl | hr
        · rw [h] at hbn; cases hbn
        · exact hr
      cases hs : saved.getD i none with
      | some v =>
        obtain ⟨c, hc⟩ :=
          ih ⟨b, hbrest, hbn⟩ (cmd0 ++ " " ++ String.singleton a ++ fmt3 v)
        exact ⟨c, by simp only [restore_loop, h, hs]; exact hc⟩
      | none =>
        obtain ⟨c, hc⟩ := ih ⟨b, hbrest, hbn⟩ cmd0
        exact ⟨c, by simp only [restore_loop, h, hs]; exact hc⟩

lemma restore_position_spec (s : Store) (axes : List Char) (speed : Option Int)
    (executor : String → Except String Unit)
    (hax : ∀ a ∈ axes, (XYZ_TO_INDEX a).isSome) :
    (axis_terms s.saved_position axes = "" →
      restore_position s axes speed executor = (s, .ok (), [])) ∧
    (axis_terms s.saved_position axes ≠ "" →
      (restore_position s axes speed executor).2.2 =
        ["G0" ++ axis_terms s.saved_position axes ++
          (if truthy speed then " F" ++ toString (speed.getD 0) else "")]) := by
  have hloop := restore_loop_ok s.saved_position axes hax "G0"
  constructor
  · intro ht
    rw [ht, String.append_empty] at hloop
    simp [restore_position, hloop]
  · intro ht
    simp only [restore_position, hloop]
    rw [if_pos (g0_append_ne ht)]
    cases htr : truthy speed
    · rw [if_neg (by simp [htr]), run_exec_log]
      rw [if_neg (by simp [htr]), String.append_empty]
    · rw [if_pos (by simp [htr]), run_exec_log]
      rw [if_pos (by simp [htr]), String.append_assoc]

lemma roundMilli_exact (q : ℚ) (h : q.den ∣ 1000) :
    (roundMilli q : ℚ) / 1000 = q := by
  obtain ⟨k, hk⟩ := h
  have hkz : (1000 : ℤ) = (q.den : ℤ) * (k : ℤ) := by exact_mod_cast hk
  have hd0 : (0 : ℤ) < (q.den : ℤ) := by exact_mod_cast q.den_pos
  have hstep : roundMilli q = (k : ℤ) * q.num := by
    unfold roundMilli
    rw [Int.fdiv_eq_ediv _ (by omega)]
    have harith : 2 * 1000 * q.num + (q.den : ℤ) =
        (q.den : ℤ) + 2 * (q.den : ℤ) * ((k : ℤ) * q.num) := by
      rw [hkz]; ring
    rw [harith, Int.add_mul_ediv_left _ _ (by omega),
      Int.ediv_eq_zero_of_lt (by omega) (by omega)]
    ring
  rw [hstep]
  conv_rhs => rw [← Rat.num_div_den q]
  have hdq : ((q.den : ℚ)) ≠ 0 := by
    exact_mod_cast q.den_pos.ne'
  have h1000 : (1000 : ℚ) = (q.den : ℚ) * (k : ℚ) := by exact_mod_cast hk
  push_cast
  rw [div_eq_div_iff (by norm_num) hdq, h1000]
  ring

lemma removeAdjust_ne (gcmd : GCodePayload) (axis : Char) (k : String)
    (h : k ≠ String.singleton axis ++ "_ADJUST") :
    removeAdjust gcmd axis k = gcmd k := if_neg h

lemma offset_step_pos (gcmd : GCodePayload) (offset : List (Option ℚ)) (axis : Char)
    (v : ℚ) (hpos : gcmd (String.singleton axis) = some v) :
    offset_step gcmd offset axis =
      .ok (offset.set ((XYZ_TO_INDEX axis).getD 0) (some v)) := by
  simp only [offset_step, hpos]

lemma offset_step_congr (g g2 : GCodePayload) (offset : List (Option ℚ)) (b : Char)
    (h1 : g2 (String.singleton b) = g (String.singleton b))
    (h2 : g2 (String.singleton b ++ "_ADJUST") = g (String.singleton b ++ "_ADJUST")) :
    offset_step g2 offset b = offset_step g offset b := by
  simp only [offset_step, h1, h2]

lemma offset_loop_congr (g g2 : GCodePayload) :
    ∀ (axes : List Char) (offset : List (Option ℚ)),
      (∀ b ∈ axes, g2 (String.singleton b) = g (String.singleton b) ∧
        g2 (String.singleton b ++ "_ADJUST") = g (String.singleton b ++ "_ADJUST")) →
      offset_loop g2 offset axes = offset_loop g offset axes := by
  intro axes
  induction axes with
  | nil => intro _ _; rfl
  | cons b rest ih =>
    intro offset hb
    have h := hb b (List.mem_cons_self b rest)
    have hrest : ∀ c ∈ rest, g2 (String.singleton c) = g (String.singleton c) ∧
        g2 (String.singleton c ++ "_ADJUST") = g (String.singleton c ++ "_ADJUST") :=
      fun c hc => hb c (List.mem_cons_of_mem b hc)
    simp only [offset_loop, offset_step_congr g g2 offset b h.1 h.2]
    cases offset_step g offset b with
    | ok off2 => exact ih off2 hrest
    | error e => rfl

lemma offset_step_length (gcmd : GCodePayload) (offset : List (Option ℚ)) (axis : Char)
    (off2 : List (Option ℚ)) (h : offset_step gcmd offset axis = .ok off2) :
    off2.length = offset.length := by
  simp only [offset_step] at h
  split at h
  · cases h; exact List.length_set offset _ _
  · split at h
    · split at h
      · cases h; exact List.length_set offset _ _
      · exact Except.noConfusion h
    · cases h; rfl

lemma offset_loop_length (gcmd : GCodePayload) :
    ∀ (axes : List Char) (offset off2 : List (Option ℚ)),
      offset_loop gcmd offset axes = .ok off2 → off2.length = offset.length := by
  intro axes
  induction axes with
  | nil =>
    intro offset off2 h
    cases h; rfl
  | cons a rest ih =>
    intro offset off2 h
    simp only [offset_loop] at h
    cases hs : offset_step gcmd offset a with
    | ok off1 =>
      rw [hs] at h
      rw [ih off1 off2 h, offset_step_length gcmd offset a off1 hs]
    | error e =>
      rw [hs] at h
      exact Except.noConfusion h

lemma offset_step_preserves (gcmd : GCodePayload) (offset : List (Option ℚ)) (axis : Char)
    (off2 : List (Option ℚ)) (j : Nat) (h : offset_step gcmd offset axis = .ok off2)
    (hj : (XYZ_TO_INDEX axis).getD 0 ≠ j) : off2.getD j none = offset.getD j none := by
  simp only [offset_step] at h
  split at h
  · cases h; exact getD_set_ne offset j _ _ hj
  · split at h
    · split at h
      · cases h; exact getD_set_ne offset j _ _ hj
      · exact Except.noConfusion h
    · cases h; rfl

lemma offset_loop_preserves (gcmd : GCodePayload) :
    ∀ (axes : List Char) (offset off2 : List (Option ℚ)) (j : Nat),
      offset_loop gcmd offset axes = .ok off2 →
      (∀ a ∈ axes, (XYZ_TO_INDEX a).getD 0 ≠ j) →
      off2.getD j none = offset.getD j none := by
  intro axes
  induction axes with
  | nil =>
    intro offset off2 j h _
    cases h; rfl
  | cons a rest ih =>
    intro offset off2 j h hj
    simp only [offset_loop] at h
    cases hs : offset_step gcmd offset a with
    | ok off1 =>
      rw [hs] at h
      rw [ih off1 off2 j h fun b hb => hj b (List.mem_cons_of_mem a hb),
        offset_step_preserves gcmd offset a off1 j hs (hj a (List.mem_cons_self a rest))]
    | error e =>
      rw [hs] at h
      exact Except.noConfusion h

lemma save_loop_filter (pos : Nat → ℚ) :
    ∀ (axes : List Char) (saved : List (Option ℚ)),
      save_loop pos saved axes =
        save_loop pos saved (axes.filter fun a => (XYZ_TO_INDEX a).isSome) := by
  intro axes
  induction axes with
  | nil => intro _; rfl
  | cons a rest ih =>
    intro saved
    cases h : XYZ_TO_INDEX a with
    | none => simp only [save_loop, h, List.filter_cons, Option.isSome_none,
        Bool.false_eq_true, if_false, ih]
    | some i => simp only [save_loop, h, List.filter_cons, Option.isSome_some,
        if_true, ih]

lemma singleton_ne_adjust (a b : Char) :
    String.singleton a ≠ String.singleton b ++ "_ADJUST" := by
  intro h
  have hl := congrArg String.length h
  rw [String.length_append] at hl
  have h1 : (String.singleton a).length = 1 := rfl
  have h2 : (String.singleton b).length = 1 := rfl
  have h3 : ("_ADJUST" : String).length = 7 := rfl
  omega

lemma adjust_key_inj (a b : Char)
    (h : String.singleton a ++ "_ADJUST" = String.singleton b ++ "_ADJUST") : a = b := by
  have hd := congrArg String.data h
  rw [String.data_append, String.data_append] at hd
  have : (String.singleton a).data = [a] := rfl
  rw [this] at hd
  have : (String.singleton b).data = [b] := rfl
  rw [this] at hd
  exact (List.cons.inj hd).1

lemma offset_loop_abs (g : GCodePayload) :
    ∀ (axes : List Char) (offset res : List (Option ℚ)) (axis : Char) (v : ℚ),
      axis ∈ axes → g (String.singleton axis) = some v →
      (∀ b ∈ axes, (XYZ_TO_INDEX b).getD 0 = (XYZ_TO_INDEX axis).getD 0 → b = axis) →
      (XYZ_TO_INDEX axis).getD 0 < offset.length →
      offset_loop g offset axes = .ok res →
      res.getD ((XYZ_TO_INDEX axis).getD 0) none = some v := by
  intro axes
  induction axes with
  | nil =>
    intro _ _ _ _ hmem
    cases hmem
  | cons b rest ih =>
    intro offset res axis v hmem hpos hinj hlt hloop
    simp only [offset_loop] at hloop
    by_cases har : axis ∈ rest
    · cases hs : offset_step g offset b with
      | ok off1 =>
        rw [hs] at hloop
        exact ih off1 res axis v har hpos
          (fun c hc => hinj c (List.mem_cons_of_mem b hc))
          (by rw [offset_step_length g offset b off1 hs]; exact hlt) hloop
      | error e =>
        rw [hs] at hloop
        exact Except.noConfusion hloop
    · have hba : b = axis := by
        rcases List.mem_cons.mp hmem with rfl | hr
        · rfl
        · exact absurd hr har
      subst hba
      rw [offset_step_pos g offset b v hpos] at hloop
      rw [offset_loop_preserves g rest _ res _ hloop ?hrest]
      · exact getD_set_self offset _ _ hlt
      case hrest =>
        intro c hc hcc
        have hcb := hinj c (List.mem_cons_of_mem b hc) hcc
        subst hcb
        exact har hc

lemma offset_loop_removeAdjust (g : GCodePayload) (axis : Char) (v : ℚ)
    (hpos : g (String.singleton axis) = some v) :
    ∀ (axes : List Char) (offset : List (Option ℚ)),
      offset_loop (removeAdjust g axis) offset axes = offset_loop g offset axes := by
  intro axes
  induction axes with
  | nil => intro _; rfl
  | cons b rest ih =>
    intro offset
    by_cases hb : b = axis
    · subst hb
      have hpos2 : removeAdjust g b (String.singleton b) = some v := by
        rw [removeAdjust_ne g b _ (singleton_ne_adjust b b)]
        exact hpos
      rw [offset_loop, offset_loop, offset_step_pos g offset b v hpos,
        offset_step_pos (removeAdjust g b) offset b v hpos2]
      exact ih _
    · have h1 : removeAdjust g axis (String.singleton b) = g (String.singleton b) :=
        removeAdjust_ne g axis _ (singleton_ne_adjust b axis)
      have h2 : removeAdjust g axis (String.singleton b ++ "_ADJUST") =
          g (String.singleton b ++ "_ADJUST") :=
        removeAdjust_ne g axis _ (fun hk => hb (adjust_key_inj b axis hk))
      rw [offset_loop, offset_loop, offset_step_congr g (removeAdjust g axis) offset b h1 h2]
      cases offset_step g offset b with
      | ok off1 => exact ih off1
      | error e => rfl

end Helpers

/-- C1: `restore_position` iterates the requested axes in the order given,
appending one axis-letter/3-decimal term per axis whose slot holds a value
and skipping axes with no stored value; if at least one term was appended,
an integer feed term is appended when a (positive) feed rate was supplied,
and the executor is invoked exactly once with the assembled string; if no
term was appended, no command is emitted and no error is raised. -/
theorem C1_emit_restore_command (s : Store) (axes : List Char) (speed : Option Int)
    (executor : String → Except String Unit)
    (hax : ∀ a ∈ axes, (XYZ_TO_INDEX a).isSome)
    (hsp : speed = none ∨ ∃ f : Int, speed = some f ∧ 0 < f) :
    (axis_terms s.saved_position axes = "" →
      restore_position s axes speed executor = (s, .ok (), [])) ∧
    (axis_terms s.saved_position axes ≠ "" →
      (restore_position s axes speed executor).2.2 =
        ["G0" ++ axis_terms s.saved_position axes ++
          (match speed with
           | some f => " F" ++ toString f
           | none => "")]) := by
  obtain ⟨h1, h2⟩ := restore_position_spec s axes speed executor hax
  refine ⟨h1, fun ht => ?_⟩
  rw [h2 ht]
  rcases hsp with rfl | ⟨f, rfl, hf⟩
  · rfl
  · have htr : truthy (some f) = true := by
      simp only [truthy, bne_iff_ne, ne_eq, decide_eq_true_eq]
      omega
    simp [htr]

/-- C1 witness: on the snapshot X=1, Z=2, restoring Z then X at feed 3000
invokes the executor exactly once with the terms in request order, three
decimals each, followed by the integer feed term. -/
theorem C1_emit_restore_command_witness :
    (restore_position ⟨[some 1, none, some 2]⟩ ['Z', 'X'] (some 3000)
      (fun _ => .ok ())).2.2 = ["G0 Z2.000 X1.000 F3000"] := by
  have h := (C1_emit_restore_command ⟨[some 1, none, some 2]⟩ ['Z', 'X'] (some 3000)
    (fun _ => .ok ()) (by decide) (Or.inr ⟨3000, rfl, by decide⟩)).2 (by decide)
  rw [h]
  decide

/-- C2: capture (`SaveCurrentPosition`) leaves slot `i` holding the live
position value exactly when some requested axis letter (either case,
duplicates idempotent) maps to `i`, and leaves it unset otherwise — in
particular every axis not requested ends up unset regardless of the prior
snapshot. -/
theorem C2_capture_exactly_requested (s : Store) (axes : List Char) (pos : Nat → ℚ)
    (i : Nat) :
    (SaveCurrentPosition s axes pos).saved_position.getD i none =
      if ∃ a ∈ axes, XYZ_TO_INDEX a = some i then some (pos i) else none := by
  have hbase : ∀ j : Nat, ([none, none, none] : List (Option ℚ)).getD j none = none := by
    intro j
    rcases j with _ | _ | _ | n <;> rfl
  unfold SaveCurrentPosition
  rw [save_loop_getD pos i axes [none, none, none] rfl, hbase i]

/-- C5 counterexample: `restore_position` does not tolerate the unrecognized
axis identifier A — `XYZ_TO_INDEX[axis]` raises `KeyError`, which the method
re-raises wrapped, so the operation does not complete normally. -/
theorem C5_counterexample :
    (restore_position ⟨[none, none, none]⟩ ['A'] none (fun _ => .ok ())).2.1 =
      .error ⟨"Error restoring position: A", .keyError ("A")⟩ := rfl

/-- C5 amended: capture (`SaveCurrentPosition`) tolerates unrecognized axis
identifiers — its result only depends on the recognized entries — while
`restore_position` raises a wrapped `KeyError` (and never invokes the
executor) whenever the requested sequence contains an unrecognized
identifier. -/
theorem C5_amended_tolerance :
    (∀ (s : Store) (axes : List Char) (pos : Nat → ℚ),
      SaveCurrentPosition s axes pos =
        SaveCurrentPosition s (axes.filter fun a => (XYZ_TO_INDEX a).isSome) pos) ∧
    (∀ (s : Store) (axes : List Char) (speed : Option Int)
        (executor : String → Except String Unit),
      (∃ a ∈ axes, XYZ_TO_INDEX a = none) →
      ∃ b : Char,
        (restore_position s axes speed executor).2.1 =
          .error ⟨"Error restoring position: " ++ String.singleton b,
            .keyError (String.singleton b)⟩ ∧
        (restore_position s axes speed executor).2.2 = []) := by
  constructor
  · intro s axes pos
    unfold SaveCurrentPosition
    rw [save_loop_filter]
  · intro s axes speed executor hbad
    obtain ⟨b, hb⟩ := restore_loop_err s.saved_position axes hbad "G0"
    exact ⟨b, by simp [restore_position, hb, PyExc.str], by simp [restore_position, hb]⟩

/-- C5 amended witness: capturing with the list [A, X] ignores A, and
restoring with [A] fails with the wrapped KeyError without invoking the
executor. -/
theorem C5_amended_tolerance_witness :
    SaveCurrentPosition ⟨[some 7, none, none]⟩ ['A', 'X'] (fun _ => 0) =
      SaveCurrentPosition ⟨[some 7, none, none]⟩
        (['A', 'X'].filter fun a => (XYZ_TO_INDEX a).isSome) (fun _ => 0) ∧
    ∃ b : Char,
      (restore_position ⟨[some 7, none, none]⟩ ['A'] none (fun _ => .ok ())).2.1 =
        .error ⟨"Error restoring position: " ++ String.singleton b,
          .keyError (String.singleton b)⟩ ∧
      (restore_position ⟨[some 7, none, none]⟩ ['A'] none (fun _ => .ok ())).2.2 = [] :=
  ⟨C5_amended_tolerance.1 ⟨[some 7, none, none]⟩ ['A', 'X'] (fun _ => 0),
    C5_amended_tolerance.2 ⟨[some 7, none, none]⟩ ['A'] none (fun _ => .ok ())
      (by decide)⟩

/-- C6: when the executor fails on the (single) command it was invoked with,
`restore_position` surfaces an error that wraps the executor failure with
the original cause preserved, and the store's saved position is unchanged. -/
theorem C6_executor_failure_wrapped (s : Store) (axes : List Char) (speed : Option Int)
    (executor : String → Except String Unit) (cmd m : String)
    (hlog : (restore_position s axes speed executor).2.2 = [cmd])
    (hexec : executor cmd = .error m) :
    (restore_position s axes speed executor).2.1 =
      .error ⟨"Error restoring position: " ++ m, .execError m⟩ ∧
    (restore_position s axes speed executor).1 = s := by
  cases hl : restore_loop s.saved_position axes "G0" with
  | error e =>
    simp only [restore_position, hl] at hlog
    exact absurd hlog (by simp)
  | ok cmd1 =>
    by_cases hg : cmd1 = "G0"
    · simp only [restore_position, hl, hg] at hlog
      simp at hlog
    · have hcc : (if truthy speed then cmd1 ++ " F" ++ toString (speed.getD 0) else cmd1)
          = cmd := by
        have := run_exec_log s executor
          (if truthy speed then cmd1 ++ " F" ++ toString (speed.getD 0) else cmd1)
        simp only [restore_position, hl, if_pos hg, this] at hlog
        exact (List.cons.inj hlog).1
      constructor
      · simp only [restore_position, hl, if_pos hg]
        exact run_exec_err s executor _ m (by rw [hcc]; exact hexec)
      · simp only [restore_position, hl, if_pos hg]
        exact run_exec_store s executor _

/-- C6 witness: with X=1 saved and an executor that always fails with the
message boom, restoring X yields the wrapped error carrying that cause, and
the saved position list is untouched. -/
theorem C6_executor_failure_wrapped_witness :
    (restore_position ⟨[some 1, none, none]⟩ ['X'] none
        (fun _ => .error ("boom"))).2.1 =
      .error ⟨"Error restoring position: boom", .execError ("boom")⟩ ∧
    (restore_position ⟨[some 1, none, none]⟩ ['X'] none
        (fun _ => .error ("boom"))).1 = ⟨[some 1, none, none]⟩ :=
  C6_executor_failure_wrapped ⟨[some 1, none, none]⟩ ['X'] none
    (fun _ => .error ("boom")) ("G0 X1.000") ("boom") (by decide) rfl

/-- C3: code behavior at the failing input: with X previously saved, a
KTC_SAVE_POSITION command mentioning only Y leaves X (and Z) unset instead
of retaining the prior value, because `cmd_KTC_SAVE_POSITION` passes a fresh
`[None, None, None]` base to `offset_from_gcmd`. -/
theorem C3_unmentioned_axes_are_reset :
    cmd_KTC_SAVE_POSITION ⟨[some 5, none, none]⟩
      (fun k => if k = "Y" then some 2 else none) = .ok ⟨[none, some 2, none]⟩ := rfl

/-- C4: code behavior at the failing input: with X previously saved as 5.0,
a KTC_SAVE_POSITION command carrying X_ADJUST=2.5 raises the wrapped
`TypeError` from `None + float` (the fresh `[None, None, None]` base
discards the stored 5.0) instead of storing 7.5. -/
theorem C4_adjust_on_set_axis_fails :
    cmd_KTC_SAVE_POSITION ⟨[some 5, none, none]⟩
      (fun k => if k = "X_ADJUST" then some (mkRat 5 2) else none) =
      .error ⟨"KTC_SAVE_POSITION: Error: unsupported operand type for +=: NoneType and float",
        .typeError ("unsupported operand type for +=: NoneType and float")⟩ := rfl

/-- C7 counterexample: with a provider returning 1/3 for every axis, the
round-trip command renders each term as 0.333, i.e. it commands the
thousandths value 333/1000, which is not the exact provider value — the
3-decimal formatting loses exactness for non-representable values. -/
theorem C7_counterexample :
    (restore_position (SaveCurrentPosition ⟨[none, none, none]⟩ ['X', 'Y', 'Z']
        (fun _ => mkRat 1 3)) ['X', 'Y', 'Z'] none (fun _ => .ok ())).2.2 =
      ["G0 X0.333 Y0.333 Z0.333"] ∧
    roundMilli (mkRat 1 3) = 333 ∧ mkRat 333 1000 ≠ mkRat 1 3 := by
  refine ⟨by decide, by decide, by decide⟩

/-- C7 (amended): round trip — capturing all three axes from a live position provider
and immediately restoring X, Y, Z with no feed rate invokes the executor
exactly once with a G0 command carrying one 3-decimal term per axis built
from the captured provider value; and (for provider values representable at
three decimals) the thousandths each term renders denote exactly the
provider value. -/
theorem C7_round_trip (s : Store) (pos : Nat → ℚ)
    (executor : String → Except String Unit)
    (h : ∀ i, i < 3 → (pos i).den ∣ 1000) :
    (restore_position (SaveCurrentPosition s ['X', 'Y', 'Z'] pos) ['X', 'Y', 'Z']
        none executor).2.2 =
      ["G0" ++ " " ++ "X" ++ fmt3 (pos 0) ++ " " ++ "Y" ++ fmt3 (pos 1) ++ " " ++ "Z"
        ++ fmt3 (pos 2)] ∧
    (∀ i, i < 3 → (roundMilli (pos i) : ℚ) / 1000 = pos i) := by
  refine ⟨?_, fun i hi => roundMilli_exact (pos i) (h i hi)⟩
  have hloop : restore_loop (SaveCurrentPosition s ['X', 'Y', 'Z'] pos).saved_position
      ['X', 'Y', 'Z'] "G0" =
      .ok ("G0" ++ " " ++ String.singleton 'X' ++ fmt3 (pos 0) ++ " " ++
        String.singleton 'Y' ++ fmt3 (pos 1) ++ " " ++ String.singleton 'Z'
        ++ fmt3 (pos 2)) := rfl
  have hne : ("G0" ++ " " ++ String.singleton 'X' ++ fmt3 (pos 0) ++ " " ++
      String.singleton 'Y' ++ fmt3 (pos 1) ++ " " ++ String.singleton 'Z'
      ++ fmt3 (pos 2)) ≠ "G0" := by
    intro he
    have hl := congrArg String.length he
    simp only [String.length_append] at hl
    have e1 : ("G0" : String).length = 2 := rfl
    have e2 : (" " : String).length = 1 := rfl
    have e3 : (String.singleton 'X').length = 1 := rfl
    have e4 : (String.singleton 'Y').length = 1 := rfl
    have e5 : (String.singleton 'Z').length = 1 := rfl
    rw [e1, e2, e3, e4, e5] at hl
    omega
  simp only [restore_position, hloop]
  rw [if_pos hne, run_exec_log]
  rfl

/-- C7 witness: capturing the provider values 0, 1/2, 1 and restoring all
three axes emits one G0 command with the three rendered terms, and each
rendered thousandths value denotes the provider value exactly. -/
theorem C7_round_trip_witness :
    (restore_position (SaveCurrentPosition ⟨[none, none, none]⟩ ['X', 'Y', 'Z']
        demoPos) ['X', 'Y', 'Z'] none (fun _ => .ok ())).2.2 =
      ["G0" ++ " " ++ "X" ++ fmt3 (demoPos 0) ++ " " ++ "Y" ++ fmt3 (demoPos 1) ++ " "
        ++ "Z" ++ fmt3 (demoPos 2)] ∧
    (∀ i, i < 3 → (roundMilli (demoPos i) : ℚ) / 1000 = demoPos i) :=
  C7_round_trip ⟨[none, none, none]⟩ demoPos (fun _ => .ok ()) (by decide)

/-- C8: when a payload supplies an absolute value for an axis, that axis's
slot ends up holding exactly the absolute value (the absolute branch is
checked first), and the whole result is unchanged if the same-axis
adjustment entry is deleted from the payload — the adjustment is ignored. -/
theorem C8_absolute_wins (gcmd : GCodePayload) (offset : List (Option ℚ)) (axis : Char)
    (v : ℚ) (hlen : offset.length = 3) (haxis : axis ∈ (['X', 'Y', 'Z'] : List Char))
    (hpos : gcmd (String.singleton axis) = some v) :
    (∀ res, offset_from_gcmd gcmd offset = .ok res →
      res.getD ((XYZ_TO_INDEX axis).getD 0) none = some v) ∧
    offset_from_gcmd gcmd offset = offset_from_gcmd (removeAdjust gcmd axis) offset := by
  constructor
  · intro res hres
    refine offset_loop_abs gcmd ['X', 'Y', 'Z'] offset res axis v haxis hpos ?_ ?_ hres
    · fin_cases haxis <;> decide
    · rw [hlen]
      fin_cases haxis <;> decide
  · unfold offset_from_gcmd
    exact (offset_loop_removeAdjust gcmd axis v hpos ['X', 'Y', 'Z'] offset).symm

/-- C8 witness: a payload carrying both X=5 and X_ADJUST=7 stores exactly 5
in the X slot, and deleting the X_ADJUST entry leaves the result unchanged. -/
theorem C8_absolute_wins_witness :
    (([some 5, none, none] : List (Option ℚ)).getD ((XYZ_TO_INDEX 'X').getD 0) none
        = some 5) ∧
    offset_from_gcmd
        (fun k => if k = "X" then some 5 else if k = "X_ADJUST" then some 7 else none)
        [none, none, none] =
      offset_from_gcmd
        (removeAdjust
          (fun k => if k = "X" then some 5 else if k = "X_ADJUST" then some 7 else none)
          'X')
        [none, none, none] := by
  have h := C8_absolute_wins
    (fun k => if k = "X" then some 5 else if k = "X_ADJUST" then some 7 else none)
    [none, none, none] 'X' 5 (by decide) (by decide) (by decide)
  exact ⟨h.1 [some 5, none, none] (by rfl), h.2⟩

/-- C9: exactly three slots exist at all times: the store is initialized
with a three-entry list, a successful KTC_SAVE_POSITION stores a three-entry
list, capture stores a three-entry list, restore never touches the store,
and get_status exposes the stored list as is; each entry is an
`Option`-valued slot, so a slot is a value or unset with no third state. -/
theorem C9_snapshot_invariant :
    Store.init.saved_position.length = 3 ∧
    (∀ (s : Store) (gcmd : GCodePayload) (s2 : Store),
      cmd_KTC_SAVE_POSITION s gcmd = .ok s2 → s2.saved_position.length = 3) ∧
    (∀ (s : Store) (axes : List Char) (pos : Nat → ℚ),
      (SaveCurrentPosition s axes pos).saved_position.length = 3) ∧
    (∀ (s : Store) (axes : List Char) (speed : Option Int)
        (executor : String → Except String Unit),
      (restore_position s axes speed executor).1 = s) ∧
    (∀ s : Store, get_status s = s.saved_position) := by
  refine ⟨rfl, ?_, ?_, ?_, fun _ => rfl⟩
  · intro s gcmd s2 h
    cases hof : offset_from_gcmd gcmd [none, none, none] with
    | ok l =>
      simp only [cmd_KTC_SAVE_POSITION, hof, Except.ok.injEq] at h
      subst h
      unfold offset_from_gcmd at hof
      exact offset_loop_length gcmd ['X', 'Y', 'Z'] [none, none, none] l hof
    | error e =>
      simp only [cmd_KTC_SAVE_POSITION, hof] at h
      exact Except.noConfusion h
  · intro s axes pos
    unfold SaveCurrentPosition
    exact save_loop_length pos axes [none, none, none]
  · intro s axes speed executor
    cases hl : restore_loop s.saved_position axes "G0" with
    | error e => simp [restore_position, hl]
    | ok cmd =>
      by_cases hg : cmd ≠ "G0"
      · simp only [restore_position, hl, if_pos hg]
        exact run_exec_store s executor _
      · simp only [restore_position, hl, if_neg hg]

/-- C9 witness: a concrete successful KTC_SAVE_POSITION yields a snapshot
with exactly three slots. -/
theorem C9_snapshot_invariant_witness :
    (⟨[none, some 2, none]⟩ : Store).saved_position.length = 3 :=
  C9_snapshot_invariant.2.1 ⟨[some 5, none, none]⟩
    (fun k => if k = "Y" then some 2 else none) ⟨[none, some 2, none]⟩ rfl

/-- C10: a feed rate of 0 is falsy in the `if speed:` guard, so
`restore_position` with speed 0 behaves exactly as with no speed at all: the
same command (without any feed term), the same outcome, the same log. -/
theorem C10_zero_feed_is_no_feed (s : Store) (axes : List Char)
    (executor : String → Except String Unit) :
    restore_position s axes (some 0) executor = restore_position s axes none executor := by
  cases hl : restore_loop s.saved_position axes "G0" with
  | error e => simp [restore_position, hl]
  | ok cmd =>
    by_cases hg : cmd ≠ "G0"
    · simp only [restore_position, hl, if_pos hg]
      rfl
    · simp only [restore_position, hl, if_neg hg]

end SaveRestore
